import Mathlib

/-!
Verification of the tableau satisfiability checker (`src/tableau.py`).

The development shallowly embeds the Python source: the `Symbol`/`Formula`
class hierarchy becomes the inductive type `Formula`; Python `__eq__`
dispatch becomes `pyEq` (returning `Option Bool`, where `none` models an
`AttributeError` raised during the comparison); the parser becomes a
fuel-indexed recursive-descent function over `List Char`; the
`PriorityQueue` branch state becomes a structure of three lists; and the
`ProofMachine` recursion becomes a fuel-indexed function returning
`Option RunRes` (`none` = fuel exhausted, `RunRes.exn` = a raised
exception propagating out of the engine).
-/

/-- The `Symbol` class hierarchy of the source, as one closed inductive type.
`Predicate` argument slots hold `Variable`/`Constant` nodes; the Python
parser stores raw one-character strings there, whose `==` agrees with
`Symbol.__eq__` name comparison, so they are embedded as `Variable` nodes. -/
inductive Formula where
  | Proposition (name : Char)
  | Variable (name : Char)
  | Constant (name : Char)
  | Predicate (name : Char) (leftVar rightVar : Formula)
  | AndFormula (left right : Formula)
  | OrFormula (left right : Formula)
  | ImpliesFormula (left right : Formula)
  | NotFormula (left : Formula)
  | ForAllFormula (var : Char) (left : Formula)
  | ExistFormula (var : Char) (left : Formula)
deriving DecidableEq, BEq, Repr

/-- `self.name`: propositions/variables/constants/predicates carry their
letter; connective nodes carry the `FormulaSymbol` character set in their
constructor. -/
def Formula.name : Formula → Char
  | .Proposition c => c
  | .Variable c => c
  | .Constant c => c
  | .Predicate c _ _ => c
  | .AndFormula _ _ => '^'
  | .OrFormula _ _ => 'v'
  | .ImpliesFormula _ _ => '>'
  | .NotFormula _ => '-'
  | .ForAllFormula _ _ => 'A'
  | .ExistFormula _ _ => 'E'

/-- `Proposition.isProp` (source line 39). -/
def Proposition.isProp (c : Char) : Bool :=
  c == 'p' || c == 'q' || c == 'r' || c == 's'

/-- `Variable.isVar` (source line 48). -/
def Variable.isVar (c : Char) : Bool :=
  c == 'x' || c == 'y' || c == 'z' || c == 'w'

/-- `Predicate.isPredChar` (source line 67). -/
def Predicate.isPredChar (c : Char) : Bool :=
  c == 'P' || c == 'Q' || c == 'R' || c == 'S'

/-- `isinstance(x, Constant)`. -/
def Formula.isConstantNode : Formula → Bool
  | .Constant _ => true
  | _ => false

/-- Python `==` between objects of the `Symbol` hierarchy, dispatching on the
runtime class of the left operand exactly as Python does:
`Symbol.__eq__` compares names; `Predicate.__eq__` (source line 85) compares
only the two argument slots, ignoring the predicate name, and raises
`AttributeError` (modelled as `none`) when the right operand has no
`getLeftVar`; `Formula.__eq__` (source line 117) compares name, class, and
then the two children with Python `and` short-circuiting. -/
def pyEq : Formula → Formula → Option Bool
  | .Proposition c, o => some (c == o.name)
  | .Variable c, o => some (c == o.name)
  | .Constant c, o => some (c == o.name)
  | .Predicate _ l r, o =>
    match o with
    | .Predicate _ l' r' =>
      (pyEq l l').bind (fun b => if b then pyEq r r' else some false)
    | _ => none
  | .AndFormula l r, o =>
    match o with
    | .AndFormula l' r' =>
      (pyEq l l').bind (fun b => if b then pyEq r r' else some false)
    | _ => some false
  | .OrFormula l r, o =>
    match o with
    | .OrFormula l' r' =>
      (pyEq l l').bind (fun b => if b then pyEq r r' else some false)
    | _ => some false
  | .ImpliesFormula l r, o =>
    match o with
    | .ImpliesFormula l' r' =>
      (pyEq l l').bind (fun b => if b then pyEq r r' else some false)
    | _ => some false
  | .NotFormula l, o =>
    match o with
    | .NotFormula l' => pyEq l l'
    | _ => some false
  | .ForAllFormula _ l, o =>
    match o with
    | .ForAllFormula _ l' => pyEq l l'
    | _ => some false
  | .ExistFormula _ l, o =>
    match o with
    | .ExistFormula _ l' => pyEq l l'
    | _ => some false

/-- `Symbol.isPrimary` (source line 26): a proposition, or a predicate whose
two slots are both `Constant` instances (`isQuantified`). -/
def Symbol.isPrimary : Formula → Bool
  | .Proposition _ => true
  | .Predicate _ l r => l.isConstantNode && r.isConstantNode
  | _ => false

/-- `Symbol.isSymbol` (source line 30). -/
def Symbol.isSymbol (f : Formula) : Bool :=
  Symbol.isPrimary f ||
    (match f with
     | .NotFormula g => Symbol.isPrimary g
     | _ => false)

/-- `NotFormula.expand` (source lines 165-180), taking the child of the
`NotFormula` node as argument.  Note the quantifier cases wrap `formula`
itself (the whole quantified node) in the new negation, exactly as the
source does. -/
def NotFormula.expandStep : Formula → Formula
  | .AndFormula a b => .OrFormula (.NotFormula a) (.NotFormula b)
  | .OrFormula a b => .AndFormula (.NotFormula a) (.NotFormula b)
  | .NotFormula a => a
  | .ImpliesFormula a b => .AndFormula a (.NotFormula b)
  | .ForAllFormula v a => .ExistFormula v (.NotFormula (.ForAllFormula v a))
  | .ExistFormula v a => .ForAllFormula v (.NotFormula (.ExistFormula v a))
  | g => .NotFormula g

/-- `ImpliesFormula.expand` (source lines 156-157). -/
def ImpliesFormula.expandStep (l r : Formula) : Formula :=
  .OrFormula (.NotFormula l) r

/-- The conditional rewrite applied at the top of `addFormula`
(source lines 385-386): `Not`/`Implies` nodes are expanded once, every
other node passes through unchanged. -/
def preExpand : Formula → Formula
  | .NotFormula g => NotFormula.expandStep g
  | .ImpliesFormula l r => ImpliesFormula.expandStep l r
  | f => f

/-- `__str__` (source lines 126-136 and 88-89) as a character list. -/
def Formula.toks : Formula → List Char
  | .Proposition c => [c]
  | .Variable c => [c]
  | .Constant c => [c]
  | .Predicate n l r => n :: '(' :: (Formula.toks l ++ ',' :: Formula.toks r ++ [')'])
  | .NotFormula f => '-' :: Formula.toks f
  | .ExistFormula v f => 'E' :: v :: Formula.toks f
  | .ForAllFormula v f => 'A' :: v :: Formula.toks f
  | .AndFormula l r => '(' :: (Formula.toks l ++ '^' :: Formula.toks r ++ [')'])
  | .OrFormula l r => '(' :: (Formula.toks l ++ 'v' :: Formula.toks r ++ [')'])
  | .ImpliesFormula l r => '(' :: (Formula.toks l ++ '>' :: Formula.toks r ++ [')'])

/-- `str(f)` as a `String`. -/
def Formula.toText (f : Formula) : String := String.mk f.toks

/-- C3: The one-step rewrite satisfies the propositional rows of the
elimination table (de Morgan for And/Or, double negation, negated and plain
implication, unchanged literal), but on the quantifier rows the code wraps
the whole quantified node in the new negation: `Not(ForAll(v,A))` rewrites
to `Exists(v, Not(ForAll(v,A)))`, not to the claimed `Exists(v, Not(A))`,
and symmetrically for `Exists` — the structural comparison of the actual
and the claimed result is `false`. -/
theorem c3_expand_table (A B : Formula) (v : Char) :
    NotFormula.expandStep (.AndFormula A B)
      = .OrFormula (.NotFormula A) (.NotFormula B)
    ∧ NotFormula.expandStep (.OrFormula A B)
      = .AndFormula (.NotFormula A) (.NotFormula B)
    ∧ NotFormula.expandStep (.NotFormula A) = A
    ∧ NotFormula.expandStep (.ImpliesFormula A B)
      = .AndFormula A (.NotFormula B)
    ∧ ImpliesFormula.expandStep A B = .OrFormula (.NotFormula A) B
    ∧ NotFormula.expandStep (.Proposition 'p') = .NotFormula (.Proposition 'p')
    ∧ NotFormula.expandStep (.ForAllFormula v A)
      = .ExistFormula v (.NotFormula (.ForAllFormula v A))
    ∧ NotFormula.expandStep (.ExistFormula v A)
      = .ForAllFormula v (.NotFormula (.ExistFormula v A))
    ∧ ((NotFormula.expandStep (.ForAllFormula 'x' (.Proposition 'p'))
        == .ExistFormula 'x' (.NotFormula (.Proposition 'p'))) = false)
    ∧ ((NotFormula.expandStep (.ExistFormula 'x' (.Proposition 'p'))
        == .ForAllFormula 'x' (.NotFormula (.Proposition 'p'))) = false) :=
  ⟨rfl, rfl, rfl, rfl, rfl, rfl, rfl, rfl, by decide, by decide⟩

/-- Failure modes of `Parser.parse`.  `parseError` embeds a raised
`ParseException` with its reason string.  `typeError` embeds the `TypeError`
Python raises while concatenating `None` into an error message (in `eatNext`
when `readNext` returned `None`, and in the dead `parseBinary` fallback);
that exception is not a `ParseException` and escapes the caller's
`except ParseException` handler.  `fuelOut` is an artifact of the
fuel-indexed embedding and is never reached at the bound `parse` uses. -/
inductive PErr where
  | parseError (reason : String)
  | typeError
  | fuelOut
deriving DecidableEq, Repr

/-- `Parser.eatNext` (source lines 243-247).  On end of input `readNext`
returns `None` and the construction of the `ParseException` message raises
`TypeError` (string + `None`); on a wrong character it raises
`ParseException`. -/
def Parser.eatNext (sym : Char) : List Char → Except PErr (List Char)
  | [] => .error .typeError
  | c :: rest =>
    if c = sym then .ok rest
    else .error (.parseError
      ("Syntax Error: Expecting " ++ String.mk [sym] ++ " actual " ++ String.mk [c]))

mutual

/-- `Parser.parseFormula` (source lines 264-327), with the token pointer
embedded as the unconsumed character list and a fuel argument for the
recursion.  Branch order follows the source: empty input, predicate letter,
proposition letter, negation, existential, universal, parenthesis, and the
undefined-rule fallback. -/
def Parser.parseFormulaF : Nat → List Char → Except PErr (Formula × List Char)
  | 0, _ => .error .fuelOut
  | n + 1, cs =>
    match cs with
    | [] => .error (.parseError "Unexpected empty sequence")
    | c :: rest =>
      if Predicate.isPredChar c then
        match Parser.eatNext '(' rest with
        | .error e => .error e
        | .ok r1 =>
          match r1 with
          | [] => .error (.parseError "var1 is not a variable")
          | v1 :: r2 =>
            if Variable.isVar v1 then
              match Parser.eatNext ',' r2 with
              | .error e => .error e
              | .ok r3 =>
                match r3 with
                | [] => .error (.parseError "var2 is not a variable")
                | v2 :: r4 =>
                  if Variable.isVar v2 then
                    match Parser.eatNext ')' r4 with
                    | .error e => .error e
                    | .ok r5 =>
                      .ok (.Predicate c (.Variable v1) (.Variable v2), r5)
                  else .error (.parseError "var2 is not a variable")
            else .error (.parseError "var1 is not a variable")
      else if Proposition.isProp c then
        .ok (.Proposition c, rest)
      else if c = '-' then
        match Parser.parseFormulaF n rest with
        | .error e => .error e
        | .ok (f, r1) => .ok (.NotFormula f, r1)
      else if c = 'E' then
        match rest with
        | [] => .error (.parseError "existentially quantifier requires a variable")
        | v :: r1 =>
          if Variable.isVar v then
            match Parser.parseFormulaF n r1 with
            | .error e => .error e
            | .ok (f, r2) => .ok (.ExistFormula v f, r2)
          else .error (.parseError "existentially quantifier requires a variable")
      else if c = 'A' then
        match rest with
        | [] => .error (.parseError "universally quantifier requires a variable")
        | v :: r1 =>
          if Variable.isVar v then
            match Parser.parseFormulaF n r1 with
            | .error e => .error e
            | .ok (f, r2) => .ok (.ForAllFormula v f, r2)
          else .error (.parseError "universally quantifier requires a variable")
      else if c = '(' then
        match Parser.parseBinaryF n rest with
        | .error e => .error e
        | .ok (f, r1) =>
          match Parser.eatNext ')' r1 with
          | .error e => .error e
          | .ok r2 => .ok (f, r2)
      else
        .error (.parseError ("Undefined rule, unexpected token" ++ String.mk [c]))

/-- `Parser.parseBinary` (source lines 329-341).  The source reads the
operator and then parses the right operand before inspecting the operator,
so a missing operator first fails inside the right `parseFormula` call; the
`None`-operator fallback (which would raise `TypeError` while building the
message) is unreachable. -/
def Parser.parseBinaryF : Nat → List Char → Except PErr (Formula × List Char)
  | 0, _ => .error .fuelOut
  | n + 1, cs =>
    match Parser.parseFormulaF n cs with
    | .error e => .error e
    | .ok (l, r1) =>
      let opRest : Option Char × List Char :=
        match r1 with
        | [] => (none, [])
        | c :: t => (some c, t)
      match Parser.parseFormulaF n opRest.2 with
      | .error e => .error e
      | .ok (rt, r3) =>
        match opRest.1 with
        | some '^' => .ok (.AndFormula l rt, r3)
        | some 'v' => .ok (.OrFormula l rt, r3)
        | some '>' => .ok (.ImpliesFormula l rt, r3)
        | some c => .error (.parseError ("Unrecognized operator " ++ String.mk [c]))
        | none => .error .typeError

end

/-- `Parser.parse` (source lines 254-262): tokenize, parse one formula,
then `assertEnd` rejects leftover input.  The fuel `2 * cs.length + 2`
always suffices: every recursive level consumes at least one character. -/
def Parser.parse (cs : List Char) : Except PErr Formula :=
  match Parser.parseFormulaF (2 * cs.length + 2) cs with
  | .error e => .error e
  | .ok (t, rest) =>
    match rest with
    | [] => .ok t
    | c :: _ => .error (.parseError ("Unexpected token " ++ String.mk [c]))

/-- C6: of the three malformed inputs, `"(p"` and `"pq"` do fail with a
`ParseException`, but `"P(x,y"` fails with a `TypeError`: `eatNext` hits
end of input, `readNext` returns `None`, and concatenating `None` into the
`ParseException` reason raises `TypeError` before the `ParseException` is
ever constructed, so the failure is not a `ParseError`. -/
theorem c6_malformed_inputs :
    Parser.parse ['(', 'p'] = .error (.parseError "Unexpected empty sequence")
    ∧ Parser.parse ['p', 'q'] = .error (.parseError "Unexpected token q")
    ∧ Parser.parse ['P', '(', 'x', ',', 'y'] = .error .typeError := by
  refine ⟨?_, ?_, ?_⟩ <;> rfl

/-- `PriorityQueue` (source lines 367-437): pending formula queue,
collected literal symbols, and introduced constants (by name character). -/
structure PriorityQueue where
  formulas : List Formula
  symbols : List Formula
  constants : List Char
deriving DecidableEq, Repr

/-- `isinstance(fm, ExistFormula)`. -/
def Formula.isExistFormula : Formula → Bool
  | .ExistFormula _ _ => true
  | _ => false

/-- `isinstance(fm, AndFormula)`. -/
def Formula.isAndFormula : Formula → Bool
  | .AndFormula _ _ => true
  | _ => false

/-- `PriorityQueue.addFormula` (source lines 383-398): expand `Not`/`Implies`
once, route literals to `symbols`, insert `Exist` and `And` formulas at the
front of the pending queue and everything else at the back. -/
def PriorityQueue.addFormula (q : PriorityQueue) (fm0 : Formula) : PriorityQueue :=
  let fm := preExpand fm0
  if Symbol.isSymbol fm then
    { q with symbols := q.symbols ++ [fm] }
  else if fm.isExistFormula then
    { q with formulas := fm :: q.formulas }
  else if fm.isAndFormula then
    { q with formulas := fm :: q.formulas }
  else
    { q with formulas := q.formulas ++ [fm] }

/-- `PriorityQueue.getFormula` (source lines 400-403): pop the front of the
pending queue, returning the popped formula together with the mutated
queue. -/
def PriorityQueue.getFormula (q : PriorityQueue) : Option (Formula × PriorityQueue) :=
  match q.formulas with
  | [] => none
  | f :: rest => some (f, { q with formulas := rest })

/-- Inner loop of `checkContradiction`: scan the symbol list for an entry
Python-equal to the target; `none` models an `AttributeError` raised by a
comparison. -/
def PriorityQueue.scanFor (target : Formula) : List Formula → Option Bool
  | [] => some false
  | c :: rest =>
    match pyEq c target with
    | none => none
    | some true => some true
    | some false => PriorityQueue.scanFor target rest

/-- Outer loop of `checkContradiction` (source lines 408-414): for each
`NotFormula` among the symbols, look for a symbol equal to its child; return
the first such negation. -/
def PriorityQueue.scanNeg : List Formula → List Formula → Option (Option Formula)
  | [], _ => some none
  | s :: rest, syms =>
    match s with
    | .NotFormula g =>
      match PriorityQueue.scanFor g syms with
      | none => none
      | some true => some (some (.NotFormula g))
      | some false => PriorityQueue.scanNeg rest syms
    | _ => PriorityQueue.scanNeg rest syms

/-- `PriorityQueue.checkContradiction`; the outer `none` models an
`AttributeError` escaping the scan. -/
def PriorityQueue.checkContradiction (q : PriorityQueue) : Option (Option Formula) :=
  PriorityQueue.scanNeg q.symbols q.symbols

/-- `PriorityQueue.introduceConstant` (source lines 422-434): first constant
letter among a..j not already present, appended to the branch's constants;
`none` once all ten are taken.  The proof engine never calls this. -/
def PriorityQueue.introduceConstant (q : PriorityQueue) : Option (Char × PriorityQueue) :=
  match (List.range 10).find? (fun i => !(q.constants.contains (Char.ofNat ('a'.toNat + i)))) with
  | some i =>
    let c := Char.ofNat ('a'.toNat + i)
    some (c, { q with constants := q.constants ++ [c] })
  | none => none

/-- `Result` (source lines 344-364). -/
inductive Result where
  | SATISFIABLE
  | NOT_SATISFIABLE
  | MAY_SATISFIABLE
deriving DecidableEq, Repr

/-- A value computed by the proof machine: either a returned `Result` or an
exception (`TableauException` or `AttributeError`) propagating out. -/
inductive RunRes where
  | ok (r : Result)
  | exn (msg : String)
deriving DecidableEq, Repr

/-- `Result.checkSAT` (source lines 356-364) in the condition order of the
source; the final `raise TableauException` branch is unreachable for
three-valued arguments but is embedded faithfully. -/
def Result.checkSAT (a b : Result) : RunRes :=
  if a = .SATISFIABLE ∨ b = .SATISFIABLE then .ok .SATISFIABLE
  else if a = .MAY_SATISFIABLE ∨ b = .MAY_SATISFIABLE then .ok .MAY_SATISFIABLE
  else if a = .NOT_SATISFIABLE ∧ b = .NOT_SATISFIABLE then .ok .NOT_SATISFIABLE
  else .exn "Uncaught logic or evaluation"

mutual

/-- `ProofMachine._isFormulaClosed` (source lines 488-510): push the incoming
formula, pop the front of the queue, then classify: `And` is alpha, `Or` is
beta, an empty queue goes to `_atom`, and anything else raises
`TableauException("Cannot evaluate formula ...")`.  There is no quantifier
case and `introduceConstant` is never called.  The `Nat` argument is fuel;
`none` means the fuel ran out. -/
def ProofMachine.isFormulaClosed : Nat → Formula → PriorityQueue → Option RunRes
  | 0, _, _ => none
  | n + 1, fm, queue =>
    let q1 := queue.addFormula fm
    match q1.getFormula with
    | none => ProofMachine.atomStep n q1
    | some (f, q2) =>
      match f with
      | .AndFormula a b => ProofMachine.alphaStep n a b q2
      | .OrFormula a b => ProofMachine.betaStep n a b q2
      | f' => some (.exn ("Cannot evaluate formula " ++ f'.toText))

/-- `ProofMachine._alpha` (source lines 448-460): push both conjuncts onto
the same branch state, then continue at `_atom`. -/
def ProofMachine.alphaStep : Nat → Formula → Formula → PriorityQueue → Option RunRes
  | 0, _, _, _ => none
  | n + 1, l, r, queue =>
    ProofMachine.atomStep n ((queue.addFormula l).addFormula r)

/-- `ProofMachine._atom` (source lines 462-478): a found contradiction
returns `NOT_SATISFIABLE`; an empty queue with no contradiction returns
`SATISFIABLE`; otherwise pop and continue. -/
def ProofMachine.atomStep : Nat → PriorityQueue → Option RunRes
  | 0, _ => none
  | n + 1, queue =>
    match queue.checkContradiction with
    | none => some (.exn "AttributeError")
    | some (some _) => some (.ok .NOT_SATISFIABLE)
    | some none =>
      match queue.getFormula with
      | none => some (.ok .SATISFIABLE)
      | some (f, q2) => ProofMachine.isFormulaClosed n f q2

/-- `ProofMachine._beta` (source lines 480-486): decide each disjunct on its
own copy of the branch state (copying is pure here; the aliasing discipline
of `PriorityQueue.copy` is modelled separately on an explicit heap), then
combine with `Result.checkSAT`.  An exception in the left branch propagates
before the right branch runs. -/
def ProofMachine.betaStep : Nat → Formula → Formula → PriorityQueue → Option RunRes
  | 0, _, _, _ => none
  | n + 1, l, r, queue =>
    match ProofMachine.isFormulaClosed n l queue with
    | none => none
    | some (.exn e) => some (.exn e)
    | some (.ok a) =>
      match ProofMachine.isFormulaClosed n r queue with
      | none => none
      | some (.exn e) => some (.exn e)
      | some (.ok b) => some (Result.checkSAT a b)

end

/-- `ProofMachine.SAT` (source lines 445-446): the engine is seeded with the
input formula itself on a fresh empty branch state. -/
def ProofMachine.SAT (n : Nat) (t : Formula) : Option RunRes :=
  ProofMachine.isFormulaClosed n t ⟨[], [], []⟩

/-- A formula built only from propositions and And/Or/Not/Implies. -/
def Formula.isPropositional : Formula → Bool
  | .Proposition c => Proposition.isProp c
  | .AndFormula l r => l.isPropositional && r.isPropositional
  | .OrFormula l r => l.isPropositional && r.isPropositional
  | .ImpliesFormula l r => l.isPropositional && r.isPropositional
  | .NotFormula f => f.isPropositional
  | _ => false

/-- C1: when the popped pending formula is a quantifier the engine does not
call `introduceConstant` and does not continue on the branch: the
classification in `_isFormulaClosed` has no quantifier case, so the parsed
input `Ex-P(x,x)` — whose existential is popped on the very first step —
makes the engine raise `TableauException("Cannot evaluate formula ...")`
instead. -/
theorem c1_quantifier_pop_raises :
    Parser.parse ['E', 'x', '-', 'P', '(', 'x', ',', 'x', ')']
      = .ok (.ExistFormula 'x'
          (.NotFormula (.Predicate 'P' (.Variable 'x') (.Variable 'x'))))
    ∧ ProofMachine.SAT 1
        (.ExistFormula 'x'
          (.NotFormula (.Predicate 'P' (.Variable 'x') (.Variable 'x'))))
      = some (.exn "Cannot evaluate formula Ex-P(x,x)") := by
  constructor <;> rfl

/-- C10: the purely propositional input `--(p>q)` makes the engine raise a
`TableauException` instead of returning a verdict: double-negation
elimination in `addFormula` exposes the implication `(p>q)` as a pending
queue entry, and the popped `Implies` matches neither the alpha nor the
beta case of `_isFormulaClosed`. -/
theorem c10_propositional_raises :
    Parser.parse ['-', '-', '(', 'p', '>', 'q', ')']
      = .ok (.NotFormula (.NotFormula
          (.ImpliesFormula (.Proposition 'p') (.Proposition 'q'))))
    ∧ Formula.isPropositional
        (.NotFormula (.NotFormula
          (.ImpliesFormula (.Proposition 'p') (.Proposition 'q')))) = true
    ∧ ProofMachine.SAT 1
        (.NotFormula (.NotFormula
          (.ImpliesFormula (.Proposition 'p') (.Proposition 'q'))))
      = some (.exn "Cannot evaluate formula (p>q)") := by
  refine ⟨?_, ?_, ?_⟩ <;> rfl

/-- C4: the engine is seeded with the original formula on an empty branch
state, and at a terminal branch state `_atom` returns `NOT_SATISFIABLE`
when `checkContradiction` reports a contradiction and `SATISFIABLE` when
the pending queue is empty with no contradiction. -/
theorem c4_seed_and_terminal_verdicts :
    (∀ n t, ProofMachine.SAT n t = ProofMachine.isFormulaClosed n t ⟨[], [], []⟩)
    ∧ (∀ n q s, q.checkContradiction = some (some s) →
        ProofMachine.atomStep (n + 1) q = some (.ok .NOT_SATISFIABLE))
    ∧ (∀ n q, q.checkContradiction = some none → q.formulas = [] →
        ProofMachine.atomStep (n + 1) q = some (.ok .SATISFIABLE)) := by
  refine ⟨fun n t => rfl, ?_, ?_⟩
  · intro n q s h
    simp [ProofMachine.atomStep, h]
  · intro n q h1 h2
    simp [ProofMachine.atomStep, h1, PriorityQueue.getFormula, h2]

/-- Witness for C4 at concrete branch states: the literal set
`[p, Not(p)]` closes with `NOT_SATISFIABLE`, and the contradiction-free
state `[p]` with an empty queue yields `SATISFIABLE`. -/
theorem c4_witness :
    ProofMachine.atomStep 1 ⟨[], [.Proposition 'p', .NotFormula (.Proposition 'p')], []⟩
      = some (.ok .NOT_SATISFIABLE)
    ∧ ProofMachine.atomStep 1 ⟨[], [.Proposition 'p'], []⟩
      = some (.ok .SATISFIABLE) :=
  ⟨c4_seed_and_terminal_verdicts.2.1 0 _ (.NotFormula (.Proposition 'p')) rfl,
   c4_seed_and_terminal_verdicts.2.2 0 _ rfl rfl⟩

/-- The no-MAY invariant for all four mutually recursive engine functions
at a given fuel. -/
def EngineNoMay (n : Nat) : Prop :=
  (∀ fm q r, ProofMachine.isFormulaClosed n fm q = some r → r ≠ .ok .MAY_SATISFIABLE)
  ∧ (∀ q r, ProofMachine.atomStep n q = some r → r ≠ .ok .MAY_SATISFIABLE)
  ∧ (∀ l rr q r, ProofMachine.alphaStep n l rr q = some r → r ≠ .ok .MAY_SATISFIABLE)
  ∧ (∀ l rr q r, ProofMachine.betaStep n l rr q = some r → r ≠ .ok .MAY_SATISFIABLE)

theorem checkSAT_may (a b : Result) :
    Result.checkSAT a b = .ok .MAY_SATISFIABLE →
      a = .MAY_SATISFIABLE ∨ b = .MAY_SATISFIABLE := by
  cases a <;> cases b <;> decide

theorem engineNoMay : ∀ n, EngineNoMay n := by
  intro n
  induction n with
  | zero =>
    refine ⟨?_, ?_, ?_, ?_⟩ <;> intro _ _ <;>
      simp [ProofMachine.isFormulaClosed, ProofMachine.atomStep,
        ProofMachine.alphaStep, ProofMachine.betaStep]
  | succ m IH =>
    obtain ⟨ihc, iha, ihal, ihb⟩ := IH
    have hc : ∀ fm q r, ProofMachine.isFormulaClosed (m + 1) fm q = some r →
        r ≠ .ok .MAY_SATISFIABLE := by
      intro fm q r h
      simp only [ProofMachine.isFormulaClosed] at h
      rcases hg : (q.addFormula fm).getFormula with _ | ⟨f, q2⟩ <;> rw [hg] at h
      · exact iha _ _ h
      · cases f with
        | AndFormula a b => exact ihal _ _ _ _ h
        | OrFormula a b => exact ihb _ _ _ _ h
        | _ => cases h; simp
    have ha : ∀ q r, ProofMachine.atomStep (m + 1) q = some r →
        r ≠ .ok .MAY_SATISFIABLE := by
      intro q r h
      simp only [ProofMachine.atomStep] at h
      rcases hcc : q.checkContradiction with _ | os <;> rw [hcc] at h
      · cases h; simp
      · rcases os with _ | s
        · rcases hg : q.getFormula with _ | ⟨f, q2⟩ <;> rw [hg] at h
          · cases h; simp
          · exact ihc _ _ _ h
        · cases h; simp
    refine ⟨hc, ha, ?_, ?_⟩
    · intro l rr q r h
      simp only [ProofMachine.alphaStep] at h
      exact iha _ _ h
    · intro l rr q r h
      simp only [ProofMachine.betaStep] at h
      rcases h1 : ProofMachine.isFormulaClosed m l q with _ | lr <;> rw [h1] at h
      · exact absurd h (by simp)
      · rcases lr with a | e
        · rcases h2 : ProofMachine.isFormulaClosed m rr q with _ | r2 <;> rw [h2] at h
          · exact absurd h (by simp)
          · rcases r2 with b | e
            · cases h
              intro heq
              rcases checkSAT_may a b heq with hma | hmb
              · exact ihc _ _ _ h1 (by rw [hma])
              · exact ihc _ _ _ h2 (by rw [hmb])
            · cases h; simp
        · cases h; simp

/-- C2: `ProofMachine.SAT` can never return `MAY_SATISFIABLE` for any
formula at any fuel — the engine has no quantifier case, never calls
`introduceConstant`, and the only producers of a verdict are the
contradiction/open-branch leaves (`NOT_SATISFIABLE`/`SATISFIABLE`) and
`checkSAT`, which only yields `MAY_SATISFIABLE` when a child already did.
So no crafted formula requiring an 11th constant (nor any other) yields
`MAY_BE_SATISFIABLE`. -/
theorem c2_sat_never_may (n : Nat) (t : Formula) (r : RunRes)
    (h : ProofMachine.SAT n t = some r) : r ≠ .ok .MAY_SATISFIABLE :=
  (engineNoMay n).1 t ⟨[], [], []⟩ r h

/-- Witness for C2: applied to the run `SAT 2 p`, which returns
`SATISFIABLE`. -/
theorem c2_witness : (RunRes.ok .SATISFIABLE) ≠ (RunRes.ok .MAY_SATISFIABLE) :=
  c2_sat_never_may 2 (.Proposition 'p') (.ok .SATISFIABLE) rfl

/-- C8: a formula that `addFormula` enqueues as pending (after the
`Not`/`Implies` pre-expansion, not routed to the literal collection) is
inserted at the front of the pending queue when it is an `Exist` or `And`
formula and appended at the back otherwise, and `getFormula` pops the
front, so a just-inserted `Exist`/`And` is returned before anything
previously queued. -/
theorem c8_queue_ordering (q : PriorityQueue) (fm : Formula)
    (hns : Symbol.isSymbol (preExpand fm) = false) :
    (((preExpand fm).isExistFormula || (preExpand fm).isAndFormula) = true →
      (q.addFormula fm).formulas = preExpand fm :: q.formulas
      ∧ (q.addFormula fm).getFormula
          = some (preExpand fm, { q.addFormula fm with formulas := q.formulas }))
    ∧ (((preExpand fm).isExistFormula || (preExpand fm).isAndFormula) = false →
      (q.addFormula fm).formulas = q.formulas ++ [preExpand fm]) := by
  constructor
  · intro hfront
    rcases Bool.or_eq_true _ _ ▸ hfront with hex | hand
    · constructor
      · simp [PriorityQueue.addFormula, hns, hex]
      · simp [PriorityQueue.addFormula, PriorityQueue.getFormula, hns, hex]
    · constructor
      · simp [PriorityQueue.addFormula, hns, hand]
      · simp [PriorityQueue.addFormula, PriorityQueue.getFormula, hns, hand]
  · intro hback
    rcases Bool.or_eq_false_iff.mp hback with ⟨hex, hand⟩
    simp [PriorityQueue.addFormula, hns, hex, hand]

/-- Witness for C8: an existential formula is inserted in front of an
already-pending disjunction and popped first; a disjunction is appended
behind an already-pending disjunction. -/
theorem c8_witness :
    (PriorityQueue.addFormula
        ⟨[.OrFormula (.Proposition 'p') (.Proposition 'q')], [], []⟩
        (.ExistFormula 'x' (.Predicate 'P' (.Variable 'x') (.Variable 'x')))).formulas
      = [.ExistFormula 'x' (.Predicate 'P' (.Variable 'x') (.Variable 'x')),
         .OrFormula (.Proposition 'p') (.Proposition 'q')]
    ∧ (PriorityQueue.addFormula
        ⟨[.OrFormula (.Proposition 'p') (.Proposition 'q')], [], []⟩
        (.OrFormula (.Proposition 'r') (.Proposition 's'))).formulas
      = [.OrFormula (.Proposition 'p') (.Proposition 'q'),
         .OrFormula (.Proposition 'r') (.Proposition 's')] :=
  ⟨((c8_queue_ordering
        ⟨[.OrFormula (.Proposition 'p') (.Proposition 'q')], [], []⟩
        (.ExistFormula 'x' (.Predicate 'P' (.Variable 'x') (.Variable 'x')))
        rfl).1 rfl).1,
   (c8_queue_ordering
        ⟨[.OrFormula (.Proposition 'p') (.Proposition 'q')], [], []⟩
        (.OrFormula (.Proposition 'r') (.Proposition 's'))
        rfl).2 rfl⟩

theorem isProp_cases {c : Char} (h : Proposition.isProp c = true) :
    c = 'p' ∨ c = 'q' ∨ c = 'r' ∨ c = 's' := by
  simp [Proposition.isProp] at h
  tauto

theorem isProp_predChar {c : Char} (h : Proposition.isProp c = true) :
    Predicate.isPredChar c = false := by
  rcases isProp_cases h with rfl | rfl | rfl | rfl <;> rfl

/-- The grammar of the specification, as a derivation relation between a
character string and the formula tree its unique derivation builds:
`formula := predicate | proposition | "-" formula | "E" variable formula |
"A" variable formula | "(" formula binop formula ")"`, with the terminal
character classes exactly the source's `isProp`/`isVar`/`isPredChar`. -/
inductive GDerives : List Char → Formula → Prop where
  | prop {c : Char} (hp : Proposition.isProp c = true) :
      GDerives [c] (.Proposition c)
  | pred {nm v1 v2 : Char} (hn : Predicate.isPredChar nm = true)
      (h1 : Variable.isVar v1 = true) (h2 : Variable.isVar v2 = true) :
      GDerives [nm, '(', v1, ',', v2, ')']
        (.Predicate nm (.Variable v1) (.Variable v2))
  | neg {cs t} (h : GDerives cs t) : GDerives ('-' :: cs) (.NotFormula t)
  | exq {v cs t} (hv : Variable.isVar v = true) (h : GDerives cs t) :
      GDerives ('E' :: v :: cs) (.ExistFormula v t)
  | allq {v cs t} (hv : Variable.isVar v = true) (h : GDerives cs t) :
      GDerives ('A' :: v :: cs) (.ForAllFormula v t)
  | andb {as bs a b} (ha : GDerives as a) (hb : GDerives bs b) :
      GDerives ('(' :: as ++ '^' :: bs ++ [')']) (.AndFormula a b)
  | orb {as bs a b} (ha : GDerives as a) (hb : GDerives bs b) :
      GDerives ('(' :: as ++ 'v' :: bs ++ [')']) (.OrFormula a b)
  | impb {as bs a b} (ha : GDerives as a) (hb : GDerives bs b) :
      GDerives ('(' :: as ++ '>' :: bs ++ [')']) (.ImpliesFormula a b)

/-- The canonical printer reproduces the derived string exactly. -/
theorem toks_of_derives {cs : List Char} {t : Formula} (h : GDerives cs t) :
    Formula.toks t = cs := by
  induction h with
  | prop hp => rfl
  | pred hn h1 h2 => rfl
  | neg h IH => simp [Formula.toks, IH]
  | exq hv h IH => simp [Formula.toks, IH]
  | allq hv h IH => simp [Formula.toks, IH]
  | andb ha hb IHa IHb => simp [Formula.toks, IHa, IHb]
  | orb ha hb IHa IHb => simp [Formula.toks, IHa, IHb]
  | impb ha hb IHa IHb => simp [Formula.toks, IHa, IHb]

/-- The recursive-descent parser consumes exactly a derived string, builds
exactly the derivation's tree, and leaves any suffix untouched, at any
fuel of at least twice the string's length. -/
theorem parse_of_derives {cs : List Char} {t : Formula} (h : GDerives cs t) :
    ∀ n rest, 2 * cs.length ≤ n →
      Parser.parseFormulaF n (cs ++ rest) = .ok (t, rest) := by
  induction h with
  | @prop c hp =>
    intro n rest hn
    obtain ⟨m, rfl⟩ : ∃ m, n = m + 1 := ⟨n - 1, by simp at hn; omega⟩
    simp [Parser.parseFormulaF, isProp_predChar hp, hp]
  | @pred nm v1 v2 hn h1 h2 =>
    intro n rest hnn
    obtain ⟨m, rfl⟩ : ∃ m, n = m + 1 := ⟨n - 1, by simp at hnn; omega⟩
    simp [Parser.parseFormulaF, Parser.eatNext, hn, h1, h2]
  | @neg cs t h IH =>
    intro n rest hn
    simp only [List.length_cons] at hn
    obtain ⟨m, rfl⟩ : ∃ m, n = m + 1 := ⟨n - 1, by omega⟩
    have ha' := IH m rest (by omega)
    simp [Parser.parseFormulaF, Predicate.isPredChar, Proposition.isProp, ha']
  | @exq v cs t hv h IH =>
    intro n rest hn
    simp only [List.length_cons] at hn
    obtain ⟨m, rfl⟩ : ∃ m, n = m + 1 := ⟨n - 1, by omega⟩
    have ha' := IH m rest (by omega)
    simp [Parser.parseFormulaF, Predicate.isPredChar, Proposition.isProp, hv, ha']
  | @allq v cs t hv h IH =>
    intro n rest hn
    simp only [List.length_cons] at hn
    obtain ⟨m, rfl⟩ : ∃ m, n = m + 1 := ⟨n - 1, by omega⟩
    have ha' := IH m rest (by omega)
    simp [Parser.parseFormulaF, Predicate.isPredChar, Proposition.isProp, hv, ha']
  | @andb as bs a b ha hb IHa IHb =>
    intro n rest hn
    have hlen : 2 * as.length + 2 * bs.length + 6 ≤ n := by
      simp [List.length_append] at hn; omega
    obtain ⟨m, rfl⟩ : ∃ m, n = m + 2 := ⟨n - 2, by omega⟩
    have ha' := IHa m ('^' :: (bs ++ (')' :: rest))) (by omega)
    have hb' := IHb m (')' :: rest) (by omega)
    simp [Parser.parseFormulaF, Parser.parseBinaryF, Parser.eatNext,
      Predicate.isPredChar, Proposition.isProp, ha', hb']
  | @orb as bs a b ha hb IHa IHb =>
    intro n rest hn
    have hlen : 2 * as.length + 2 * bs.length + 6 ≤ n := by
      simp [List.length_append] at hn; omega
    obtain ⟨m, rfl⟩ : ∃ m, n = m + 2 := ⟨n - 2, by omega⟩
    have ha' := IHa m ('v' :: (bs ++ (')' :: rest))) (by omega)
    have hb' := IHb m (')' :: rest) (by omega)
    simp [Parser.parseFormulaF, Parser.parseBinaryF, Parser.eatNext,
      Predicate.isPredChar, Proposition.isProp, ha', hb']
  | @impb as bs a b ha hb IHa IHb =>
    intro n rest hn
    have hlen : 2 * as.length + 2 * bs.length + 6 ≤ n := by
      simp [List.length_append] at hn; omega
    obtain ⟨m, rfl⟩ : ∃ m, n = m + 2 := ⟨n - 2, by omega⟩
    have ha' := IHa m ('>' :: (bs ++ (')' :: rest))) (by omega)
    have hb' := IHb m (')' :: rest) (by omega)
    simp [Parser.parseFormulaF, Parser.parseBinaryF, Parser.eatNext,
      Predicate.isPredChar, Proposition.isProp, ha', hb']

/-- C7: for every string conforming to the grammar (every string with a
`GDerives` derivation), parsing succeeds and printing the parsed tree with
the canonical printer yields the original string: `parse(s).toText() == s`,
including the parenthesization of binary forms and the prefix notation for
`-`, `E`, `A`. -/
theorem c7_parse_print_roundtrip (cs : List Char) (t : Formula)
    (h : GDerives cs t) :
    Parser.parse cs = .ok t ∧ Formula.toks t = cs := by
  have h2 := parse_of_derives h (2 * cs.length + 2) [] (by omega)
  rw [List.append_nil] at h2
  exact ⟨by simp [Parser.parse, h2], toks_of_derives h⟩

/-- Witness for C7 at the concrete grammar string `(pvEx-P(x,x))`. -/
theorem c7_witness :
    Parser.parse ['(', 'p', 'v', 'E', 'x', '-', 'P', '(', 'x', ',', 'x', ')', ')']
      = .ok (.OrFormula (.Proposition 'p')
          (.ExistFormula 'x'
            (.NotFormula (.Predicate 'P' (.Variable 'x') (.Variable 'x')))))
    ∧ Formula.toks (.OrFormula (.Proposition 'p')
          (.ExistFormula 'x'
            (.NotFormula (.Predicate 'P' (.Variable 'x') (.Variable 'x')))))
      = ['(', 'p', 'v', 'E', 'x', '-', 'P', '(', 'x', ',', 'x', ')', ')'] :=
  c7_parse_print_roundtrip _ _
    (@GDerives.orb ['p'] ['E', 'x', '-', 'P', '(', 'x', ',', 'x', ')']
      (.Proposition 'p')
      (.ExistFormula 'x'
        (.NotFormula (.Predicate 'P' (.Variable 'x') (.Variable 'x'))))
      (GDerives.prop rfl)
      (@GDerives.exq 'x' ['-', 'P', '(', 'x', ',', 'x', ')']
        (.NotFormula (.Predicate 'P' (.Variable 'x') (.Variable 'x'))) rfl
        (GDerives.neg (@GDerives.pred 'P' 'x' 'x' rfl rfl rfl))))

/-- A heap of list cells modelling Python object identity for the three
mutable lists of `PriorityQueue` objects: a queue object holds one
reference (index) into each store, `list.copy()` allocates a fresh cell at
the end of a store, and the in-place `append`/`insert` mutations of
`addFormula` write through the references. -/
structure Heap where
  fstore : List (List Formula)
  sstore : List (List Formula)
  cstore : List (List Char)

/-- The three list references held by one `PriorityQueue` object. -/
structure QRef where
  fr : Nat
  sr : Nat
  cr : Nat

def Heap.getF (h : Heap) (i : Nat) : List Formula := h.fstore.getD i []

def Heap.getS (h : Heap) (i : Nat) : List Formula := h.sstore.getD i []

def Heap.getC (h : Heap) (i : Nat) : List Char := h.cstore.getD i []

/-- `PriorityQueue.copy` (source lines 436-437):
`PriorityQueue(self.formulas.copy(), self.symbols.copy(),
self.constants.copy())` — three freshly allocated cells holding copies of
the current contents, returned as a new queue object. -/
def Heap.copyQ (h : Heap) (q : QRef) : Heap × QRef :=
  (⟨h.fstore ++ [h.getF q.fr], h.sstore ++ [h.getS q.sr], h.cstore ++ [h.getC q.cr]⟩,
   ⟨h.fstore.length, h.sstore.length, h.cstore.length⟩)

/-- `PriorityQueue.addFormula` acting through references: the in-place
`append`/`insert` list mutations write to the cells the queue references,
with the same routing as `PriorityQueue.addFormula`. -/
def Heap.addFormulaH (h : Heap) (q : QRef) (fm0 : Formula) : Heap :=
  let fm := preExpand fm0
  if Symbol.isSymbol fm then
    { h with sstore := h.sstore.set q.sr (h.getS q.sr ++ [fm]) }
  else if fm.isExistFormula then
    { h with fstore := h.fstore.set q.fr (fm :: h.getF q.fr) }
  else if fm.isAndFormula then
    { h with fstore := h.fstore.set q.fr (fm :: h.getF q.fr) }
  else
    { h with fstore := h.fstore.set q.fr (h.getF q.fr ++ [fm]) }

/-- `ProofMachine._beta` (source lines 484-485) makes the two branch states
for the recursive calls: `queue.copy()` for the left disjunct and
`queue.copy()` again for the right one. -/
def Heap.betaCopies (h : Heap) (q : QRef) : Heap × QRef × QRef :=
  let p1 := Heap.copyQ h q
  let p2 := Heap.copyQ p1.1 q
  (p2.1, p1.2, p2.2)

/-- All three collections visible through `q` are the same in both heaps. -/
def Heap.unchangedAt (h' h : Heap) (q : QRef) : Prop :=
  h'.getF q.fr = h.getF q.fr ∧ h'.getS q.sr = h.getS q.sr ∧ h'.getC q.cr = h.getC q.cr

/-- `addFormula` through one queue's references leaves every cell of a
queue with different references untouched. -/
theorem addFormulaH_frame (h : Heap) (q q' : QRef) (fm : Formula)
    (hf : q.fr ≠ q'.fr) (hs : q.sr ≠ q'.sr) :
    Heap.unchangedAt (Heap.addFormulaH h q fm) h q' := by
  have hF : ∀ x : List Formula, (h.fstore.set q.fr x)[q'.fr]? = h.fstore[q'.fr]? :=
    fun x => List.getElem?_set_ne hf
  have hS : ∀ x : List Formula, (h.sstore.set q.sr x)[q'.sr]? = h.sstore[q'.sr]? :=
    fun x => List.getElem?_set_ne hs
  unfold Heap.unchangedAt Heap.getF Heap.getS Heap.getC Heap.addFormulaH
  by_cases h1 : Symbol.isSymbol (preExpand fm)
  · simp [h1, hS]
  · by_cases h2 : (preExpand fm).isExistFormula
    · simp [h1, h2, hF]
    · by_cases h3 : (preExpand fm).isAndFormula
      · simp [h1, h2, h3, hF]
      · simp [h1, h2, h3, hF]

/-- C9: after a beta split each recursive call receives its own copy of the
branch state; pushing a formula or literal into one child's state via
`addFormula` changes neither the sibling's literal collection nor the
sibling's pending queue (nor its constants), and leaves the original
state's collections untouched — and symmetrically for the other child. -/
theorem c9_branch_isolation (h : Heap) (q : QRef) (f g : Formula)
    (hf : q.fr < h.fstore.length) (hs : q.sr < h.sstore.length) :
    (Heap.unchangedAt
        (Heap.addFormulaH (Heap.betaCopies h q).1 (Heap.betaCopies h q).2.1 f)
        (Heap.betaCopies h q).1 (Heap.betaCopies h q).2.2
      ∧ Heap.unchangedAt
        (Heap.addFormulaH (Heap.betaCopies h q).1 (Heap.betaCopies h q).2.1 f)
        (Heap.betaCopies h q).1 q)
    ∧ (Heap.unchangedAt
        (Heap.addFormulaH (Heap.betaCopies h q).1 (Heap.betaCopies h q).2.2 g)
        (Heap.betaCopies h q).1 (Heap.betaCopies h q).2.1
      ∧ Heap.unchangedAt
        (Heap.addFormulaH (Heap.betaCopies h q).1 (Heap.betaCopies h q).2.2 g)
        (Heap.betaCopies h q).1 q) := by
  have e1f : (Heap.betaCopies h q).2.1.fr = h.fstore.length := rfl
  have e1s : (Heap.betaCopies h q).2.1.sr = h.sstore.length := rfl
  have e2f : (Heap.betaCopies h q).2.2.fr = h.fstore.length + 1 := by
    simp [Heap.betaCopies, Heap.copyQ]
  have e2s : (Heap.betaCopies h q).2.2.sr = h.sstore.length + 1 := by
    simp [Heap.betaCopies, Heap.copyQ]
  refine ⟨⟨?_, ?_⟩, ⟨?_, ?_⟩⟩
  · exact addFormulaH_frame _ _ _ f (by rw [e1f, e2f]; omega) (by rw [e1s, e2s]; omega)
  · exact addFormulaH_frame _ _ _ f (by rw [e1f]; omega) (by rw [e1s]; omega)
  · exact addFormulaH_frame _ _ _ g (by rw [e1f, e2f]; omega) (by rw [e1s, e2s]; omega)
  · exact addFormulaH_frame _ _ _ g (by rw [e2f]; omega) (by rw [e2s]; omega)

/-- Witness for C9 at a concrete heap: one queue object whose three cells
sit at index 0 of each store. -/
theorem c9_witness :
    (Heap.unchangedAt
        (Heap.addFormulaH
          (Heap.betaCopies ⟨[[]], [[]], [[]]⟩ ⟨0, 0, 0⟩).1
          (Heap.betaCopies ⟨[[]], [[]], [[]]⟩ ⟨0, 0, 0⟩).2.1
          (.Proposition 'p'))
        (Heap.betaCopies ⟨[[]], [[]], [[]]⟩ ⟨0, 0, 0⟩).1
        (Heap.betaCopies ⟨[[]], [[]], [[]]⟩ ⟨0, 0, 0⟩).2.2
      ∧ Heap.unchangedAt
        (Heap.addFormulaH
          (Heap.betaCopies ⟨[[]], [[]], [[]]⟩ ⟨0, 0, 0⟩).1
          (Heap.betaCopies ⟨[[]], [[]], [[]]⟩ ⟨0, 0, 0⟩).2.1
          (.Proposition 'p'))
        (Heap.betaCopies ⟨[[]], [[]], [[]]⟩ ⟨0, 0, 0⟩).1 ⟨0, 0, 0⟩)
    ∧ (Heap.unchangedAt
        (Heap.addFormulaH
          (Heap.betaCopies ⟨[[]], [[]], [[]]⟩ ⟨0, 0, 0⟩).1
          (Heap.betaCopies ⟨[[]], [[]], [[]]⟩ ⟨0, 0, 0⟩).2.2
          (.OrFormula (.Proposition 'p') (.Proposition 'q')))
        (Heap.betaCopies ⟨[[]], [[]], [[]]⟩ ⟨0, 0, 0⟩).1
        (Heap.betaCopies ⟨[[]], [[]], [[]]⟩ ⟨0, 0, 0⟩).2.1
      ∧ Heap.unchangedAt
        (Heap.addFormulaH
          (Heap.betaCopies ⟨[[]], [[]], [[]]⟩ ⟨0, 0, 0⟩).1
          (Heap.betaCopies ⟨[[]], [[]], [[]]⟩ ⟨0, 0, 0⟩).2.2
          (.OrFormula (.Proposition 'p') (.Proposition 'q')))
        (Heap.betaCopies ⟨[[]], [[]], [[]]⟩ ⟨0, 0, 0⟩).1 ⟨0, 0, 0⟩) :=
  c9_branch_isolation ⟨[[]], [[]], [[]]⟩ ⟨0, 0, 0⟩
    (.Proposition 'p') (.OrFormula (.Proposition 'p') (.Proposition 'q'))
    (by decide) (by decide)

/-- C5: `Predicate.__eq__` ignores the predicate name: the predicates
`P(x,y)` and `Q(x,y)`, which differ only in their name, compare equal
(Python returns `True`), contradicting the claim that predicates with
different names are unequal. -/
theorem c5_predicate_eq_ignores_name :
    pyEq (.Predicate 'P' (.Variable 'x') (.Variable 'y'))
         (.Predicate 'Q' (.Variable 'x') (.Variable 'y')) = some true
    ∧ (('P' : Char) == 'Q') = false := by
  constructor
  · rfl
  · decide
